import Mathlib

/-!
Verification of the GRnvS libraw Rust binding (src/grnvs.rs) against its
specification.  The binding is a thin FFI wrapper: the external C library
(libraw) is opaque, so it is modelled as a record of mathematical functions
(`Ext`), and each wrapper function of the binding is translated into a Lean
function over that record.  Machine integers are modelled as `Int` (i32,
isize) and `Nat` (usize, u16, u32); byte buffers are `List Nat`.  Casts such
as Rust's `as usize` on an `isize` are modelled explicitly as `% 2^64`.
Calls that cross the FFI boundary are recorded in traces of `ExtCall` values
so that claims about which external routines are invoked can be stated.
-/

namespace Grnvs

/-- The number of values of Rust's usize type (64-bit target): `result as usize`
on an `isize` reinterprets two's complement, i.e. takes the value mod 2^64. -/
def USIZE : Nat := 2 ^ 64

/-- From src/grnvs.rs lines 59-63: `#[repr(i32)] pub enum Layer { SOCK_DGRAM = 2, SOCK_RAW = 3 }`. -/
inductive Layer
  | SOCK_DGRAM
  | SOCK_RAW
deriving DecidableEq

/-- The discriminant of `Layer`, i.e. the value of Rust's `layer as i32`
given the explicit discriminants `SOCK_DGRAM = 2` and `SOCK_RAW = 3`. -/
def Layer.code : Layer → Int
  | .SOCK_DGRAM => 2
  | .SOCK_RAW => 3

/-- The external libraw library, an opaque collaborator: one mathematical
function per `extern "C"` entry point declared in src/grnvs.rs.  Buffers are
byte lists; the read entry point is modelled by the count it returns (the
bytes it deposits in the caller's buffer are irrelevant to every claim).
`hexdump_str` returns the bytes behind the returned C-string pointer
(the binding reads them up to the first null terminator). -/
structure Ext where
  grnvs_open : List Nat → Int → Int
  grnvs_read : Int → Nat → Option Int → Int
  grnvs_write : Int → List Nat → Int
  grnvs_close : Int → Int
  icmp6_checksum : List Nat → List Nat → Nat
  get_crc32 : List Nat → Nat
  hexdump_str : List Nat → List Nat

/-- A call crossing the FFI boundary into libraw. -/
inductive ExtCall
  | openC (ifname : List Nat) (layer : Int)
  | readC (fd : Int) (maxlen : Nat)
  | writeC (fd : Int) (len : Nat)
  | closeC (fd : Int)
  | hexdumpC (len : Nat)
  | hexdumpStrC (len : Nat)
deriving DecidableEq

/-- From src/grnvs.rs line 65: `pub struct Socket(i32);` — a raw socket handle
wrapping the identifier returned by `grnvs_open`. -/
structure Socket where
  fd : Int
deriving DecidableEq

/-- From src/grnvs.rs lines 68-73 (`Socket::open`):
`CString::new(ifname).unwrap()` panics iff `ifname` contains an interior null
byte, and that happens before `grnvs_open` is reached; otherwise the handle
wraps whatever `grnvs_open` returned, unchecked.  The result is the socket
(`none` on panic) paired with the trace of FFI calls made. -/
def Socket.open' (ext : Ext) (ifname : List Nat) (layer : Layer) : Option Socket × List ExtCall :=
  if 0 ∈ ifname then
    (none, [])
  else
    (some ⟨ext.grnvs_open ifname layer.code⟩, [.openC ifname layer.code])

/-- From src/grnvs.rs lines 80-91 (`Socket::read`): the isize returned by
`grnvs_read` is cast to usize with `as _` and returned; no error check.
The cast is two's complement reinterpretation, i.e. `% 2^64`. -/
def Socket.read (ext : Ext) (s : Socket) (destination : List Nat) (timeout : Option Int) : Nat :=
  ((ext.grnvs_read s.fd destination.length timeout) % (USIZE : Int)).toNat

/-- The error type of src/grnvs.rs lines 135-136: `pub struct Error(String);`. -/
structure Error where
  msg : String
deriving DecidableEq

/-- From src/grnvs.rs lines 97-107 (`Socket::write`): a negative result from
`grnvs_write` yields `Err(Error(format!("Error while writing to socket: {}", Errno::last())))`;
otherwise `Ok(result as usize)`.  The operating-system error code current at
the moment of failure and its rendering by `nix::errno::Errno`'s Display are
outside the binding, so they enter as parameters `errno` and `errnoShow`. -/
def Socket.write (ext : Ext) (errnoShow : Int → String) (errno : Int) (s : Socket)
    (source : List Nat) : Except Error Nat :=
  let result := ext.grnvs_write s.fd source
  if result < 0 then
    .error ⟨"Error while writing to socket: " ++ errnoShow errno⟩
  else
    .ok ((result % (USIZE : Int)).toNat)

/-- From src/grnvs.rs lines 128-133 (`impl Drop for Socket`): dropping the
socket performs exactly the call `grnvs_close(self.0)`. -/
def Socket.dropTrace (s : Socket) : List ExtCall := [.closeC s.fd]

/-- From src/grnvs.rs line 110: `pub fn close(self) {}` — the body makes no
FFI call; `self` is moved into `close` and is dropped when `close` returns,
so the trace of an explicit close is exactly the drop trace. -/
def Socket.closeTrace (s : Socket) : List ExtCall := [] ++ s.dropTrace

/-- The FFI calls made over a whole socket lifetime, by Rust ownership
semantics: if `close` is called explicitly, the socket is moved into `close`
(whose end of scope runs `Drop` once) and the original binding is dead, so no
further drop occurs at the end of the enclosing scope; otherwise `Drop` runs
once at end of lifetime. -/
def Socket.lifetimeCloseCalls (s : Socket) (explicitClose : Bool) : List ExtCall :=
  if explicitClose then s.closeTrace else s.dropTrace

/-- From src/grnvs.rs lines 154-157: `icmp6_chksum(hdr, payload)` delegates to
the external `icmp6_checksum` on exactly its inputs. -/
def icmp6_chksum (ext : Ext) (hdr : List Nat) (payload : List Nat) : Nat :=
  ext.icmp6_checksum hdr payload

/-- From src/grnvs.rs lines 160-162: `crc32(data)` delegates to the external
`get_crc32` on exactly its input. -/
def crc32 (ext : Ext) (data : List Nat) : Nat :=
  ext.get_crc32 data

/-- The outcome of a hexdump wrapper: either the fatal path (diagnostic
message printed to stderr followed by `std::process::exit(1)`, no FFI call
made) or a normal return with the value and the trace of FFI calls. -/
inductive HexOut (α : Type)
  | fatal (msg : String)
  | ok (val : α) (calls : List ExtCall)
deriving DecidableEq

/-- The diagnostic printed by both hexdump wrappers on oversized input
(src/grnvs.rs lines 175-179 and 187-191). -/
def tooLongMsg (n : Nat) : String :=
  "data buffer too long (" ++ toString n ++ " bytes) for libraw's hexdump function"

/-- From src/grnvs.rs lines 172-182 (`print_hexdump_to_stderr`): lengths above
17760 take the fatal path before any FFI call; otherwise the external
`hexdump` is invoked on the buffer. -/
def print_hexdump_to_stderr (data : List Nat) : HexOut Unit :=
  if data.length > 17760 then
    .fatal (tooLongMsg data.length)
  else
    .ok () [.hexdumpC data.length]

/-- `CStr::from_ptr(..).to_bytes()`: the bytes up to (excluding) the first
null terminator. -/
def cstrBytes (l : List Nat) : List Nat := l.takeWhile (· ≠ 0)

/-- Lower bound of the first continuation byte admitted after lead byte `b`
(Rust core UTF-8 validation: E0 requires A0.., F0 requires 90..). -/
def contLo (b : Nat) : Nat :=
  if b = 0xE0 then 0xA0 else if b = 0xF0 then 0x90 else 0x80

/-- Upper bound of the first continuation byte admitted after lead byte `b`
(Rust core UTF-8 validation: ED requires ..9F, F4 requires ..8F). -/
def contHi (b : Nat) : Nat :=
  if b = 0xED then 0x9F else if b = 0xF4 then 0x8F else 0xBF

/-- Rust's `String::from_utf8_lossy`, which src/grnvs.rs line 195 applies to
the null-terminated output of `hexdump_str`: decode UTF-8, and replace each
maximal subpart of an ill-formed subsequence by one U+FFFD replacement
character.  Output is the list of decoded scalar values.  The skip distances
on invalid input follow Rust core's `error_len` (1 after a bad lead or bad
first continuation, 2 after a bad second continuation, 3 after a bad third). -/
def utf8DecodeLossy : List Nat → List Nat
  | [] => []
  | b :: rest =>
    if b < 0x80 then
      b :: utf8DecodeLossy rest
    else if b < 0xC2 then
      0xFFFD :: utf8DecodeLossy rest
    else if b ≤ 0xDF then
      match rest with
      | [] => [0xFFFD]
      | c :: rest2 =>
        if 0x80 ≤ c ∧ c ≤ 0xBF then
          ((b - 0xC0) * 64 + (c - 0x80)) :: utf8DecodeLossy rest2
        else
          0xFFFD :: utf8DecodeLossy (c :: rest2)
    else if b ≤ 0xEF then
      match rest with
      | [] => [0xFFFD]
      | c1 :: rest2 =>
        if contLo b ≤ c1 ∧ c1 ≤ contHi b then
          match rest2 with
          | [] => [0xFFFD]
          | c2 :: rest3 =>
            if 0x80 ≤ c2 ∧ c2 ≤ 0xBF then
              ((b - 0xE0) * 4096 + (c1 - 0x80) * 64 + (c2 - 0x80)) :: utf8DecodeLossy rest3
            else
              0xFFFD :: utf8DecodeLossy (c2 :: rest3)
        else
          0xFFFD :: utf8DecodeLossy (c1 :: rest2)
    else if b ≤ 0xF4 then
      match rest with
      | [] => [0xFFFD]
      | c1 :: rest2 =>
        if contLo b ≤ c1 ∧ c1 ≤ contHi b then
          match rest2 with
          | [] => [0xFFFD]
          | c2 :: rest3 =>
            if 0x80 ≤ c2 ∧ c2 ≤ 0xBF then
              match rest3 with
              | [] => [0xFFFD]
              | c3 :: rest4 =>
                if 0x80 ≤ c3 ∧ c3 ≤ 0xBF then
                  ((b - 0xF0) * 262144 + (c1 - 0x80) * 4096 + (c2 - 0x80) * 64 + (c3 - 0x80)) ::
                    utf8DecodeLossy rest4
                else
                  0xFFFD :: utf8DecodeLossy (c3 :: rest4)
            else
              0xFFFD :: utf8DecodeLossy (c2 :: rest3)
        else
          0xFFFD :: utf8DecodeLossy (c1 :: rest2)
    else
      0xFFFD :: utf8DecodeLossy rest

/-- From src/grnvs.rs lines 184-196 (`hexdump_to_string`): the same 17760
length gate as `print_hexdump_to_stderr`; below it, the external
`hexdump_str` is invoked and its null-terminated output is decoded with
`String::from_utf8_lossy`.  The decoded text is given as its scalar values. -/
def hexdump_to_string (ext : Ext) (data : List Nat) : HexOut (List Nat) :=
  if data.length > 17760 then
    .fatal (tooLongMsg data.length)
  else
    .ok (utf8DecodeLossy (cstrBytes (ext.hexdump_str data))) [.hexdumpStrC data.length]

/-- The standard UTF-8 encoding relation, written from the spec's phrase
"byte sequence that is valid text": `bs` is the well-formed encoding of the
Unicode scalar value `cp`. -/
def utf8EncodesChar (cp : Nat) (bs : List Nat) : Prop :=
  (cp < 0x80 ∧ bs = [cp]) ∨
  (0x80 ≤ cp ∧ cp < 0x800 ∧ bs = [0xC0 + cp / 64, 0x80 + cp % 64]) ∨
  (0x800 ≤ cp ∧ cp < 0x10000 ∧ ¬(0xD800 ≤ cp ∧ cp < 0xE000) ∧
    bs = [0xE0 + cp / 4096, 0x80 + cp / 64 % 64, 0x80 + cp % 64]) ∨
  (0x10000 ≤ cp ∧ cp < 0x110000 ∧
    bs = [0xF0 + cp / 262144, 0x80 + cp / 4096 % 64, 0x80 + cp / 64 % 64, 0x80 + cp % 64])

/-- No well-formed character encoding occurs at the head of `l`: the bytes at
this position are not valid text. -/
def noValidHead (l : List Nat) : Prop :=
  ∀ cp pre suf, l = pre ++ suf → ¬ utf8EncodesChar cp pre

/-- Declarative statement of lossy decoding, written from the spec's words:
the input splits into chunks, each either a well-formed character encoding
(decoded to its scalar value) or a nonempty stretch starting at a position
where the bytes are not valid text (replaced by the U+FFFD marker). -/
inductive LossyDecodes : List Nat → List Nat → Prop
  | nil : LossyDecodes [] []
  | valid (cp : Nat) (bs rest cps : List Nat) :
      utf8EncodesChar cp bs → LossyDecodes rest cps → LossyDecodes (bs ++ rest) (cp :: cps)
  | invalid (chunk rest cps : List Nat) :
      chunk ≠ [] → noValidHead (chunk ++ rest) → LossyDecodes rest cps →
      LossyDecodes (chunk ++ rest) (0xFFFD :: cps)

/-- The lifetime bounds declared by a Rust function signature: a pair
`(i, j)` means lifetime parameter `i` must outlive lifetime parameter `j`. -/
structure FnLifetimeSig where
  outlives : List (Nat × Nat)

/-- From src/grnvs.rs line 113: `pub fn get_hwaddr<'a>(&self) -> &'a [u8; 6]`.
Lifetime parameter 0 is the elided lifetime of the `&self` borrow (the
handle's borrow), parameter 1 is the declared `'a` of the returned reference;
the signature declares no bound relating them. -/
def get_hwaddr_sig : FnLifetimeSig := ⟨[]⟩

/-- A concrete assignment of lifetime extents (as naturals, larger = lives
longer) satisfies a signature when every declared outlives bound holds. -/
def FnLifetimeSig.admits (sig : FnLifetimeSig) (assign : Nat → Nat) : Prop :=
  ∀ p ∈ sig.outlives, assign p.2 ≤ assign p.1

/-- A concrete libraw model whose read and write entry points report failure
(-1) on every call, used as the environment of counterexamples. -/
def extNeg : Ext where
  grnvs_open := fun _ _ => -1
  grnvs_read := fun _ _ _ => -1
  grnvs_write := fun _ _ => -1
  grnvs_close := fun _ => 0
  icmp6_checksum := fun _ _ => 0
  get_crc32 := fun _ => 0
  hexdump_str := fun _ => []

/-- A concrete benign libraw model used by witnesses. -/
def ext0 : Ext where
  grnvs_open := fun _ _ => 4
  grnvs_read := fun _ len _ => (len : Int)
  grnvs_write := fun _ src => (src.length : Int)
  grnvs_close := fun _ => 0
  icmp6_checksum := fun hdr payload => (hdr.length + payload.length) % 65536
  get_crc32 := fun data => data.length % 4294967296
  hexdump_str := fun data => data.map (fun b => 0x30 + b % 10) ++ [0]

end Grnvs
namespace Grnvs

/-- C1: for every handle and source buffer, when the external write reports a
non-negative result `write` returns `Ok` with a count ≤ the source length (a
Nat, never negative), and when it reports a negative result `write` returns
an `Error` whose message is derived from the operating-system error code
current at the moment of failure.  The hypothesis `habi` is the libraw ABI
contract that a non-negative write result is a byte count for the given
buffer; `hlen` records that a Rust slice length fits in usize. -/
theorem write_result_spec (ext : Ext) (errnoShow : Int → String) (errno : Int) (s : Socket)
    (source : List Nat) (hlen : source.length < USIZE)
    (habi : 0 ≤ ext.grnvs_write s.fd source →
      ext.grnvs_write s.fd source ≤ (source.length : Int)) :
    (0 ≤ ext.grnvs_write s.fd source →
      ∃ n : Nat, Socket.write ext errnoShow errno s source = .ok n ∧ n ≤ source.length) ∧
    (ext.grnvs_write s.fd source < 0 →
      Socket.write ext errnoShow errno s source =
        .error ⟨"Error while writing to socket: " ++ errnoShow errno⟩) := by
  constructor
  · intro h
    have hle := habi h
    refine ⟨((ext.grnvs_write s.fd source % (USIZE : Int)).toNat), ?_, ?_⟩
    · simp only [Socket.write]
      rw [if_neg (by omega)]
    · simp only [USIZE] at hlen ⊢
      omega
  · intro h
    simp only [Socket.write]
    rw [if_pos h]

/-- Witness for `write_result_spec` at a concrete environment and buffer. -/
theorem write_result_spec_w :
    ∃ n : Nat, Socket.write ext0 (fun _ => "E") 0 ⟨4⟩ [9, 9] = .ok n ∧ n ≤ [9, 9].length := by
  exact (write_result_spec ext0 (fun _ => "E") 0 ⟨4⟩ [9, 9]
    (by simp [USIZE]) (by intro _; simp [ext0])).1 (by simp [ext0])

/-- C2 (failing input): the code casts a negative `grnvs_read` result to
usize, so an external error report of -1 on an empty destination buffer
surfaces as the count 2^64 - 1, which exceeds the buffer length 0 — against
the documented contract 0 ≤ n ≤ buffer length. -/
theorem read_negative_count_overflow :
    Socket.read extNeg ⟨3⟩ [] none = 18446744073709551615 ∧
    ([] : List Nat).length < Socket.read extNeg ⟨3⟩ [] none := by
  refine ⟨?_, ?_⟩ <;> decide

/-- C3: over a whole socket lifetime the external `grnvs_close` is called
exactly once — the trace of close calls is the singleton `[closeC fd]` both
when the socket is closed explicitly (`close(self)` consumes the socket, so
the end-of-scope drop of the original binding never runs) and when it is only
dropped at end of lifetime. -/
theorem close_called_exactly_once (s : Socket) (explicitClose : Bool) :
    Socket.lifetimeCloseCalls s explicitClose = [ExtCall.closeC s.fd] := by
  cases explicitClose <;> rfl

/-- C4: for every interface name without an embedded null byte, `open` wraps
whatever identifier `grnvs_open` returned — unchecked, so a negative
identifier is stored as-is in the handle. -/
theorem open_stores_unchecked (ext : Ext) (ifname : List Nat) (layer : Layer)
    (h : 0 ∉ ifname) :
    (Socket.open' ext ifname layer).1 = some ⟨ext.grnvs_open ifname layer.code⟩ := by
  simp [Socket.open', h]

/-- Witness for `open_stores_unchecked`: with an external open reporting -1,
the handle wraps the negative identifier -1. -/
theorem open_stores_unchecked_w :
    (Socket.open' extNeg [97] Layer.SOCK_RAW).1 = some ⟨-1⟩ :=
  open_stores_unchecked extNeg [97] Layer.SOCK_RAW (by decide)

/-- C6: for every interface name containing an embedded null byte, `open`
fails (the `CString::new(..).unwrap()` panic) before any FFI call: the result
is `none` and the boundary-call trace is empty. -/
theorem open_null_name_no_boundary_call (ext : Ext) (ifname : List Nat) (layer : Layer)
    (h : 0 ∈ ifname) :
    Socket.open' ext ifname layer = (none, []) := by
  simp [Socket.open', h]

/-- Witness for `open_null_name_no_boundary_call` on the name [104, 0]. -/
theorem open_null_name_no_boundary_call_w :
    Socket.open' ext0 [104, 0] Layer.SOCK_DGRAM = (none, []) :=
  open_null_name_no_boundary_call ext0 [104, 0] Layer.SOCK_DGRAM (by decide)

/-- C8: the checksum wrappers are deterministic — on identical inputs (a
40-byte header and payload for `icmp6_chksum`, a data buffer for `crc32`)
repeated calls yield identical outputs. -/
theorem checksums_deterministic (ext : Ext)
    (hdr₁ hdr₂ payload₁ payload₂ data₁ data₂ : List Nat)
    (_hlen : hdr₁.length = 40) (hh : hdr₁ = hdr₂) (hp : payload₁ = payload₂)
    (hd : data₁ = data₂) :
    icmp6_chksum ext hdr₁ payload₁ = icmp6_chksum ext hdr₂ payload₂ ∧
    crc32 ext data₁ = crc32 ext data₂ := by
  subst hh; subst hp; subst hd
  exact ⟨rfl, rfl⟩

/-- Witness for `checksums_deterministic` at concrete inputs. -/
theorem checksums_deterministic_w :
    icmp6_chksum ext0 (List.replicate 40 7) [1] = icmp6_chksum ext0 (List.replicate 40 7) [1] ∧
    crc32 ext0 [2] = crc32 ext0 [2] :=
  checksums_deterministic ext0 (List.replicate 40 7) (List.replicate 40 7) [1] [1] [2] [2]
    (by simp) rfl rfl rfl

/-- C9 (failing input): the signature of `get_hwaddr` declares no outlives
bound, so it admits an assignment in which the returned view (lifetime
parameter 1) strictly outlives the handle borrow (lifetime parameter 0) —
e.g. instantiating `'a` to `'static`.  The wrapper therefore does not prevent
retaining the view beyond the handle's lifetime. -/
theorem get_hwaddr_view_outlives_handle :
    get_hwaddr_sig.admits (fun i => i) ∧ (fun i : Nat => i) 0 < (fun i : Nat => i) 1 := by
  constructor
  · intro p hp
    simp [get_hwaddr_sig] at hp
  · decide

/-- C10: the layer selector is marshalled to the external open as the fixed
code 2 for `SOCK_DGRAM` and 3 for `SOCK_RAW`, and every open call appearing
in the boundary trace carries one of exactly these two integers. -/
theorem layer_code_marshalling :
    (Layer.code .SOCK_DGRAM = 2 ∧ Layer.code .SOCK_RAW = 3) ∧
    ∀ (ext : Ext) (ifname name : List Nat) (l : Layer) (lay : Int),
      ExtCall.openC name lay ∈ (Socket.open' ext ifname l).2 → lay = 2 ∨ lay = 3 := by
  refine ⟨⟨rfl, rfl⟩, ?_⟩
  intro ext ifname name l lay hmem
  by_cases h : 0 ∈ ifname
  · simp [Socket.open', h] at hmem
  · simp [Socket.open', h, ExtCall.openC.injEq] at hmem
    cases l
    · exact Or.inl hmem.2
    · exact Or.inr hmem.2

/-- Witness for `layer_code_marshalling` at a concrete open call. -/
theorem layer_code_marshalling_w : (2 : Int) = 2 ∨ (2 : Int) = 3 :=
  layer_code_marshalling.2 ext0 [97] [97] Layer.SOCK_DGRAM 2 (by decide)

/-- C5: on every buffer longer than 17760 bytes both hexdump wrappers take
the fatal path — a diagnostic message and process exit, with no FFI call and
hence no partial output — while on every buffer of length at most 17760 the
respective external routine is invoked. -/
theorem hexdump_length_gate (ext : Ext) (data : List Nat) :
    (data.length > 17760 →
      print_hexdump_to_stderr data = .fatal (tooLongMsg data.length) ∧
      hexdump_to_string ext data = .fatal (tooLongMsg data.length)) ∧
    (data.length ≤ 17760 →
      print_hexdump_to_stderr data = .ok () [.hexdumpC data.length] ∧
      hexdump_to_string ext data =
        .ok (utf8DecodeLossy (cstrBytes (ext.hexdump_str data))) [.hexdumpStrC data.length]) := by
  constructor
  · intro h
    constructor
    · simp only [print_hexdump_to_stderr]
      rw [if_pos h]
    · simp only [hexdump_to_string]
      rw [if_pos h]
  · intro h
    constructor
    · simp only [print_hexdump_to_stderr]
      rw [if_neg (by omega)]
    · simp only [hexdump_to_string]
      rw [if_neg (by omega)]

/-- Witness for `hexdump_length_gate`: the fatal path on a 17761-byte buffer
and the FFI-invoking path on a 2-byte buffer. -/
theorem hexdump_length_gate_w :
    print_hexdump_to_stderr (List.replicate 17761 0) = .fatal (tooLongMsg 17761) ∧
    print_hexdump_to_stderr [1, 2] = .ok () [.hexdumpC 2] := by
  have hlen : (List.replicate 17761 (0 : Nat)).length = 17761 := List.length_replicate _ _
  have h1 := (hexdump_length_gate ext0 (List.replicate 17761 0)).1 (by rw [hlen]; omega)
  have h2 := (hexdump_length_gate ext0 [1, 2]).2 (by decide)
  rw [hlen] at h1
  exact ⟨h1.1, h2.1⟩

end Grnvs
namespace Grnvs

/-- A UTF-8 encoding never produces the empty byte sequence. -/
theorem encodes_nil_elim {cp : Nat} (h : utf8EncodesChar cp []) : False := by
  rcases h with ⟨_, h⟩ | ⟨_, _, h⟩ | ⟨_, _, _, h⟩ | ⟨_, _, h⟩ <;> simp at h

/-- Inversion of `utf8EncodesChar` on a nonempty byte sequence: the lead byte
determines the sequence's length and the admissible continuation ranges. -/
theorem encodes_shape {cp x : Nat} {xs : List Nat} (h : utf8EncodesChar cp (x :: xs)) :
    (x < 0x80 ∧ xs = [] ∧ cp = x) ∨
    (0xC2 ≤ x ∧ x ≤ 0xDF ∧ ∃ y, xs = [y] ∧ 0x80 ≤ y ∧ y ≤ 0xBF) ∨
    (0xE0 ≤ x ∧ x ≤ 0xEF ∧ ∃ y z, xs = [y, z] ∧ contLo x ≤ y ∧ y ≤ contHi x ∧
      0x80 ≤ z ∧ z ≤ 0xBF) ∨
    (0xF0 ≤ x ∧ x ≤ 0xF4 ∧ ∃ y z w, xs = [y, z, w] ∧ contLo x ≤ y ∧ y ≤ contHi x ∧
      0x80 ≤ z ∧ z ≤ 0xBF ∧ 0x80 ≤ w ∧ w ≤ 0xBF) := by
  rcases h with ⟨h1, h2⟩ | ⟨h1, h2, h3⟩ | ⟨h1, h2, h3, h4⟩ | ⟨h1, h2, h3⟩
  · simp only [List.cons.injEq] at h2
    exact Or.inl ⟨by omega, h2.2, h2.1.symm⟩
  · simp only [List.cons.injEq] at h3
    obtain ⟨hx, hxs⟩ := h3
    exact Or.inr (Or.inl ⟨by omega, by omega, 0x80 + cp % 64, hxs, by omega, by omega⟩)
  · simp only [List.cons.injEq] at h4
    obtain ⟨hx, hxs⟩ := h4
    refine Or.inr (Or.inr (Or.inl ⟨by omega, by omega, 0x80 + cp / 64 % 64, 0x80 + cp % 64,
      hxs, ?_, ?_, by omega, by omega⟩))
    · subst hx
      simp only [contLo]
      split_ifs with hE0 hF0 <;> omega
    · subst hx
      simp only [contHi]
      split_ifs with hED hF4 <;> omega
  · simp only [List.cons.injEq] at h3
    obtain ⟨hx, hxs⟩ := h3
    refine Or.inr (Or.inr (Or.inr ⟨by omega, by omega, 0x80 + cp / 4096 % 64,
      0x80 + cp / 64 % 64, 0x80 + cp % 64, hxs, ?_, ?_, by omega, by omega,
      by omega, by omega⟩))
    · subst hx
      simp only [contLo]
      split_ifs with hE0 hF0 <;> omega
    · subst hx
      simp only [contHi]
      split_ifs with hED hF4 <;> omega

/-- An ASCII byte encodes itself. -/
theorem enc_ascii {b : Nat} (h : b < 0x80) : utf8EncodesChar b [b] := Or.inl ⟨h, rfl⟩

/-- A well-formed two-byte sequence encodes the scalar value the decoder
reconstructs for it. -/
theorem enc_two {b c : Nat} (h1 : 0xC2 ≤ b) (h2 : b ≤ 0xDF) (h3 : 0x80 ≤ c) (h4 : c ≤ 0xBF) :
    utf8EncodesChar ((b - 0xC0) * 64 + (c - 0x80)) [b, c] := by
  refine Or.inr (Or.inl ⟨by omega, by omega, ?_⟩)
  have e1 : 0xC0 + ((b - 0xC0) * 64 + (c - 0x80)) / 64 = b := by omega
  have e2 : 0x80 + ((b - 0xC0) * 64 + (c - 0x80)) % 64 = c := by omega
  rw [e1, e2]

/-- Resolution of `contLo` for three-byte lead bytes. -/
theorem contLo_cases {b c1 : Nat} (h2 : b ≤ 0xEF) (h3 : contLo b ≤ c1) :
    (b = 0xE0 ∧ 0xA0 ≤ c1) ∨ (b ≠ 0xE0 ∧ 0x80 ≤ c1) := by
  by_cases hb : b = 0xE0
  · subst hb
    simp only [contLo] at h3
    norm_num at h3
    exact Or.inl ⟨rfl, h3⟩
  · have he : contLo b = 0x80 ∨ contLo b = 0x90 := by
      simp only [contLo]
      split_ifs <;> simp_all
    exact Or.inr ⟨hb, by omega⟩

/-- Resolution of `contLo` for four-byte lead bytes. -/
theorem contLoF_cases {b c1 : Nat} (h1 : 0xF0 ≤ b) (h3 : contLo b ≤ c1) :
    (b = 0xF0 ∧ 0x90 ≤ c1) ∨ (b ≠ 0xF0 ∧ 0x80 ≤ c1) := by
  by_cases hb : b = 0xF0
  · subst hb
    simp only [contLo] at h3
    norm_num at h3
    exact Or.inl ⟨rfl, h3⟩
  · have he : contLo b = 0x80 := by
      simp only [contLo]
      rw [if_neg (by omega), if_neg hb]
    exact Or.inr ⟨hb, by omega⟩

/-- Resolution of `contHi` for multi-byte lead bytes. -/
theorem contHi_cases {b c1 : Nat} (h4 : c1 ≤ contHi b) :
    (b = 0xED ∧ c1 ≤ 0x9F) ∨ (b = 0xF4 ∧ c1 ≤ 0x8F) ∨ (b ≠ 0xED ∧ b ≠ 0xF4 ∧ c1 ≤ 0xBF) := by
  by_cases hb : b = 0xED
  · subst hb
    simp only [contHi] at h4
    norm_num at h4
    exact Or.inl ⟨rfl, h4⟩
  · by_cases hb2 : b = 0xF4
    · subst hb2
      simp only [contHi] at h4
      norm_num at h4
      exact Or.inr (Or.inl ⟨rfl, h4⟩)
    · have he : contHi b = 0xBF := by
        simp only [contHi]
        rw [if_neg hb, if_neg hb2]
      exact Or.inr (Or.inr ⟨hb, hb2, by omega⟩)

/-- A well-formed three-byte sequence encodes the scalar value the decoder
reconstructs for it. -/
theorem enc_three {b c1 c2 : Nat} (h1 : 0xE0 ≤ b) (h2 : b ≤ 0xEF)
    (h3 : contLo b ≤ c1) (h4 : c1 ≤ contHi b) (h5 : 0x80 ≤ c2) (h6 : c2 ≤ 0xBF) :
    utf8EncodesChar ((b - 0xE0) * 4096 + (c1 - 0x80) * 64 + (c2 - 0x80)) [b, c1, c2] := by
  have hlo := contLo_cases h2 h3
  have hhi := contHi_cases h4
  refine Or.inr (Or.inr (Or.inl ⟨by omega, by omega, by omega, ?_⟩))
  have e1 : 0xE0 + ((b - 0xE0) * 4096 + (c1 - 0x80) * 64 + (c2 - 0x80)) / 4096 = b := by omega
  have e2 : 0x80 + ((b - 0xE0) * 4096 + (c1 - 0x80) * 64 + (c2 - 0x80)) / 64 % 64 = c1 := by
    omega
  have e3 : 0x80 + ((b - 0xE0) * 4096 + (c1 - 0x80) * 64 + (c2 - 0x80)) % 64 = c2 := by omega
  rw [e1, e2, e3]

/-- A well-formed four-byte sequence encodes the scalar value the decoder
reconstructs for it. -/
theorem enc_four {b c1 c2 c3 : Nat} (h1 : 0xF0 ≤ b) (h2 : b ≤ 0xF4)
    (h3 : contLo b ≤ c1) (h4 : c1 ≤ contHi b) (h5 : 0x80 ≤ c2) (h6 : c2 ≤ 0xBF)
    (h7 : 0x80 ≤ c3) (h8 : c3 ≤ 0xBF) :
    utf8EncodesChar
      ((b - 0xF0) * 262144 + (c1 - 0x80) * 4096 + (c2 - 0x80) * 64 + (c3 - 0x80))
      [b, c1, c2, c3] := by
  have hlo := contLoF_cases h1 h3
  have hhi := contHi_cases h4
  refine Or.inr (Or.inr (Or.inr ⟨by omega, by omega, ?_⟩))
  have e1 : 0xF0 +
      ((b - 0xF0) * 262144 + (c1 - 0x80) * 4096 + (c2 - 0x80) * 64 + (c3 - 0x80)) / 262144
      = b := by omega
  have e2 : 0x80 +
      ((b - 0xF0) * 262144 + (c1 - 0x80) * 4096 + (c2 - 0x80) * 64 + (c3 - 0x80)) / 4096 % 64
      = c1 := by omega
  have e3 : 0x80 +
      ((b - 0xF0) * 262144 + (c1 - 0x80) * 4096 + (c2 - 0x80) * 64 + (c3 - 0x80)) / 64 % 64
      = c2 := by omega
  have e4 : 0x80 +
      ((b - 0xF0) * 262144 + (c1 - 0x80) * 4096 + (c2 - 0x80) * 64 + (c3 - 0x80)) % 64
      = c3 := by omega
  rw [e1, e2, e3, e4]

end Grnvs
namespace Grnvs

/-- A byte that is not a valid lead byte (a stray continuation byte, an
overlong-only lead C0/C1, or a lead above F4) starts no valid encoding. -/
theorem nvh_bad_lead {b : Nat} {rest : List Nat} (h1 : 0x80 ≤ b)
    (h2 : b < 0xC2 ∨ 0xF4 < b) : noValidHead (b :: rest) := by
  intro cp pre suf heq henc
  match pre with
  | [] => exact encodes_nil_elim henc
  | x :: xs =>
    simp only [List.cons_append, List.cons.injEq] at heq
    obtain ⟨hbx, -⟩ := heq
    subst hbx
    rcases encodes_shape henc with ⟨hr, -, -⟩ | ⟨hr1, hr2, -⟩ | ⟨hr1, hr2, -⟩ |
      ⟨hr1, hr2, -⟩ <;> omega

/-- A lone non-ASCII byte at the end of the input starts no valid encoding. -/
theorem nvh_single {b : Nat} (h1 : 0x80 ≤ b) : noValidHead [b] := by
  intro cp pre suf heq henc
  match pre with
  | [] => exact encodes_nil_elim henc
  | x :: xs =>
    simp only [List.cons_append, List.cons.injEq] at heq
    obtain ⟨hbx, heq2⟩ := heq
    subst hbx
    rcases encodes_shape henc with ⟨hr, -, -⟩ | ⟨-, -, y, hxs, -, -⟩ |
      ⟨-, -, y, z, hxs, -, -, -, -⟩ | ⟨-, -, y, z, w, hxs, -, -, -, -, -, -⟩
    · omega
    · subst hxs; simp at heq2
    · subst hxs; simp at heq2
    · subst hxs; simp at heq2

/-- A three- or four-byte lead followed by a single byte at the end of the
input starts no valid encoding. -/
theorem nvh_pair {b c : Nat} (h1 : 0xE0 ≤ b) : noValidHead [b, c] := by
  intro cp pre suf heq henc
  match pre with
  | [] => exact encodes_nil_elim henc
  | x :: xs =>
    simp only [List.cons_append, List.cons.injEq] at heq
    obtain ⟨hbx, heq2⟩ := heq
    subst hbx
    rcases encodes_shape henc with ⟨hr, -, -⟩ | ⟨hr1, hr2, y, hxs, -, -⟩ |
      ⟨-, -, y, z, hxs, -, -, -, -⟩ | ⟨-, -, y, z, w, hxs, -, -, -, -, -, -⟩
    · omega
    · omega
    · subst hxs; simp at heq2
    · subst hxs; simp at heq2

/-- A four-byte lead followed by only two bytes at the end of the input
starts no valid encoding. -/
theorem nvh_triple {b c1 c2 : Nat} (h1 : 0xF0 ≤ b) : noValidHead [b, c1, c2] := by
  intro cp pre suf heq henc
  match pre with
  | [] => exact encodes_nil_elim henc
  | x :: xs =>
    simp only [List.cons_append, List.cons.injEq] at heq
    obtain ⟨hbx, heq2⟩ := heq
    subst hbx
    rcases encodes_shape henc with ⟨hr, -, -⟩ | ⟨hr1, hr2, y, hxs, -, -⟩ |
      ⟨hr1, hr2, y, z, hxs, -, -, -, -⟩ | ⟨-, -, y, z, w, hxs, -, -, -, -, -, -⟩
    · omega
    · omega
    · omega
    · subst hxs; simp at heq2

/-- A two-byte lead whose continuation byte is invalid starts no valid
encoding. -/
theorem nvh_two_badcont {b c : Nat} {rest : List Nat} (h1 : 0xC2 ≤ b) (h2 : b ≤ 0xDF)
    (hc : ¬(0x80 ≤ c ∧ c ≤ 0xBF)) : noValidHead (b :: c :: rest) := by
  intro cp pre suf heq henc
  match pre with
  | [] => exact encodes_nil_elim henc
  | x :: xs =>
    simp only [List.cons_append, List.cons.injEq] at heq
    obtain ⟨hbx, heq2⟩ := heq
    subst hbx
    rcases encodes_shape henc with ⟨hr, -, -⟩ | ⟨hr1, hr2, y, hxs, hy1, hy2⟩ |
      ⟨hr1, hr2, y, z, hxs, -, -, -, -⟩ | ⟨hr1, hr2, y, z, w, hxs, -, -, -, -, -, -⟩
    · omega
    · subst hxs
      simp only [List.cons_append, List.nil_append, List.cons.injEq] at heq2
      omega
    · omega
    · omega

/-- A three- or four-byte lead whose first continuation byte is outside the
range the lead admits starts no valid encoding. -/
theorem nvh_badc1 {b c1 : Nat} {rest : List Nat} (h1 : 0xE0 ≤ b)
    (hc : ¬(contLo b ≤ c1 ∧ c1 ≤ contHi b)) : noValidHead (b :: c1 :: rest) := by
  intro cp pre suf heq henc
  match pre with
  | [] => exact encodes_nil_elim henc
  | x :: xs =>
    simp only [List.cons_append, List.cons.injEq] at heq
    obtain ⟨hbx, heq2⟩ := heq
    subst hbx
    rcases encodes_shape henc with ⟨hr, -, -⟩ | ⟨hr1, hr2, y, hxs, -, -⟩ |
      ⟨hr1, hr2, y, z, hxs, hy1, hy2, -, -⟩ | ⟨hr1, hr2, y, z, w, hxs, hy1, hy2, -, -, -, -⟩
    · omega
    · omega
    · subst hxs
      simp only [List.cons_append, List.nil_append, List.cons.injEq] at heq2
      obtain ⟨hyc, -⟩ := heq2
      subst hyc
      exact hc ⟨hy1, hy2⟩
    · subst hxs
      simp only [List.cons_append, List.nil_append, List.cons.injEq] at heq2
      obtain ⟨hyc, -⟩ := heq2
      subst hyc
      exact hc ⟨hy1, hy2⟩

/-- A three- or four-byte lead whose second continuation byte is not a
continuation byte starts no valid encoding. -/
theorem nvh_badc2 {b c1 c2 : Nat} {rest : List Nat} (h1 : 0xE0 ≤ b)
    (hc : ¬(0x80 ≤ c2 ∧ c2 ≤ 0xBF)) : noValidHead (b :: c1 :: c2 :: rest) := by
  intro cp pre suf heq henc
  match pre with
  | [] => exact encodes_nil_elim henc
  | x :: xs =>
    simp only [List.cons_append, List.cons.injEq] at heq
    obtain ⟨hbx, heq2⟩ := heq
    subst hbx
    rcases encodes_shape henc with ⟨hr, -, -⟩ | ⟨hr1, hr2, y, hxs, -, -⟩ |
      ⟨hr1, hr2, y, z, hxs, -, -, hz1, hz2⟩ | ⟨hr1, hr2, y, z, w, hxs, -, -, hz1, hz2, -, -⟩
    · omega
    · omega
    · subst hxs
      simp only [List.cons_append, List.nil_append, List.cons.injEq] at heq2
      omega
    · subst hxs
      simp only [List.cons_append, List.nil_append, List.cons.injEq] at heq2
      omega

/-- A four-byte lead whose third continuation byte is not a continuation
byte starts no valid encoding. -/
theorem nvh_badc3 {b c1 c2 c3 : Nat} {rest : List Nat} (h1 : 0xF0 ≤ b)
    (hc : ¬(0x80 ≤ c3 ∧ c3 ≤ 0xBF)) : noValidHead (b :: c1 :: c2 :: c3 :: rest) := by
  intro cp pre suf heq henc
  match pre with
  | [] => exact encodes_nil_elim henc
  | x :: xs =>
    simp only [List.cons_append, List.cons.injEq] at heq
    obtain ⟨hbx, heq2⟩ := heq
    subst hbx
    rcases encodes_shape henc with ⟨hr, -, -⟩ | ⟨hr1, hr2, y, hxs, -, -⟩ |
      ⟨hr1, hr2, y, z, hxs, -, -, -, -⟩ | ⟨hr1, hr2, y, z, w, hxs, -, -, -, -, hw1, hw2⟩
    · omega
    · omega
    · omega
    · subst hxs
      simp only [List.cons_append, List.nil_append, List.cons.injEq] at heq2
      omega

end Grnvs
namespace Grnvs

/-- Unfolding: the decoder on the empty input. -/
theorem dLossy_nil : utf8DecodeLossy [] = [] := utf8DecodeLossy.eq_1

/-- Unfolding: ASCII byte. -/
theorem dLossy_ascii {b : Nat} {r : List Nat} (h : b < 0x80) :
    utf8DecodeLossy (b :: r) = b :: utf8DecodeLossy r := by
  cases r with
  | nil => rw [utf8DecodeLossy.eq_2, if_pos h]
  | cons c r1 =>
    cases r1 with
    | nil => rw [utf8DecodeLossy.eq_3, if_pos h]
    | cons c2 r2 =>
      cases r2 with
      | nil => rw [utf8DecodeLossy.eq_4, if_pos h]
      | cons c3 r3 => rw [utf8DecodeLossy.eq_5, if_pos h]

/-- Unfolding: stray continuation byte or overlong-only lead. -/
theorem dLossy_low {b : Nat} {r : List Nat} (h1 : ¬b < 0x80) (h2 : b < 0xC2) :
    utf8DecodeLossy (b :: r) = 0xFFFD :: utf8DecodeLossy r := by
  cases r with
  | nil => rw [utf8DecodeLossy.eq_2, if_neg h1, if_pos h2]
  | cons c r1 =>
    cases r1 with
    | nil => rw [utf8DecodeLossy.eq_3, if_neg h1, if_pos h2]
    | cons c2 r2 =>
      cases r2 with
      | nil => rw [utf8DecodeLossy.eq_4, if_neg h1, if_pos h2]
      | cons c3 r3 => rw [utf8DecodeLossy.eq_5, if_neg h1, if_pos h2]

/-- Unfolding: lead byte above F4. -/
theorem dLossy_high {b : Nat} {r : List Nat} (h1 : ¬b < 0x80) (h2 : ¬b < 0xC2)
    (h3 : ¬b ≤ 0xDF) (h4 : ¬b ≤ 0xEF) (h5 : ¬b ≤ 0xF4) :
    utf8DecodeLossy (b :: r) = 0xFFFD :: utf8DecodeLossy r := by
  cases r with
  | nil => rw [utf8DecodeLossy.eq_2, if_neg h1, if_neg h2, if_neg h3, if_neg h4, if_neg h5]
  | cons c r1 =>
    cases r1 with
    | nil =>
      rw [utf8DecodeLossy.eq_3, if_neg h1, if_neg h2, if_neg h3, if_neg h4, if_neg h5]
    | cons c2 r2 =>
      cases r2 with
      | nil =>
        rw [utf8DecodeLossy.eq_4, if_neg h1, if_neg h2, if_neg h3, if_neg h4, if_neg h5]
      | cons c3 r3 =>
        rw [utf8DecodeLossy.eq_5, if_neg h1, if_neg h2, if_neg h3, if_neg h4, if_neg h5]

/-- Unfolding: two-byte lead at the end of the input. -/
theorem dLossy_two_nil {b : Nat} (h1 : ¬b < 0x80) (h2 : ¬b < 0xC2) (h3 : b ≤ 0xDF) :
    utf8DecodeLossy [b] = [0xFFFD] := by
  rw [utf8DecodeLossy.eq_2, if_neg h1, if_neg h2, if_pos h3]

/-- Unfolding: well-formed two-byte sequence. -/
theorem dLossy_two_ok {b c : Nat} {r : List Nat} (h1 : ¬b < 0x80) (h2 : ¬b < 0xC2)
    (h3 : b ≤ 0xDF) (hc : 0x80 ≤ c ∧ c ≤ 0xBF) :
    utf8DecodeLossy (b :: c :: r) = ((b - 0xC0) * 64 + (c - 0x80)) :: utf8DecodeLossy r := by
  cases r with
  | nil => rw [utf8DecodeLossy.eq_3, if_neg h1, if_neg h2, if_pos h3, if_pos hc]
  | cons c2 r2 =>
    cases r2 with
    | nil => rw [utf8DecodeLossy.eq_4, if_neg h1, if_neg h2, if_pos h3, if_pos hc]
    | cons c3 r3 => rw [utf8DecodeLossy.eq_5, if_neg h1, if_neg h2, if_pos h3, if_pos hc]

/-- Unfolding: two-byte lead with an invalid continuation byte. -/
theorem dLossy_two_bad {b c : Nat} {r : List Nat} (h1 : ¬b < 0x80) (h2 : ¬b < 0xC2)
    (h3 : b ≤ 0xDF) (hc : ¬(0x80 ≤ c ∧ c ≤ 0xBF)) :
    utf8DecodeLossy (b :: c :: r) = 0xFFFD :: utf8DecodeLossy (c :: r) := by
  cases r with
  | nil => rw [utf8DecodeLossy.eq_3, if_neg h1, if_neg h2, if_pos h3, if_neg hc]
  | cons c2 r2 =>
    cases r2 with
    | nil => rw [utf8DecodeLossy.eq_4, if_neg h1, if_neg h2, if_pos h3, if_neg hc]
    | cons c3 r3 => rw [utf8DecodeLossy.eq_5, if_neg h1, if_neg h2, if_pos h3, if_neg hc]

/-- Unfolding: three-byte lead at the end of the input. -/
theorem dLossy_three_nil {b : Nat} (h1 : ¬b < 0x80) (h2 : ¬b < 0xC2) (h3 : ¬b ≤ 0xDF)
    (h4 : b ≤ 0xEF) : utf8DecodeLossy [b] = [0xFFFD] := by
  rw [utf8DecodeLossy.eq_2, if_neg h1, if_neg h2, if_neg h3, if_pos h4]

/-- Unfolding: three-byte lead and valid first continuation at the end. -/
theorem dLossy_three_pair {b c1 : Nat} (h1 : ¬b < 0x80) (h2 : ¬b < 0xC2) (h3 : ¬b ≤ 0xDF)
    (h4 : b ≤ 0xEF) (hc1 : contLo b ≤ c1 ∧ c1 ≤ contHi b) :
    utf8DecodeLossy [b, c1] = [0xFFFD] := by
  rw [utf8DecodeLossy.eq_3, if_neg h1, if_neg h2, if_neg h3, if_pos h4, if_pos hc1]

/-- Unfolding: well-formed three-byte sequence. -/
theorem dLossy_three_ok {b c1 c2 : Nat} {r : List Nat} (h1 : ¬b < 0x80) (h2 : ¬b < 0xC2)
    (h3 : ¬b ≤ 0xDF) (h4 : b ≤ 0xEF) (hc1 : contLo b ≤ c1 ∧ c1 ≤ contHi b)
    (hc2 : 0x80 ≤ c2 ∧ c2 ≤ 0xBF) :
    utf8DecodeLossy (b :: c1 :: c2 :: r) =
      ((b - 0xE0) * 4096 + (c1 - 0x80) * 64 + (c2 - 0x80)) :: utf8DecodeLossy r := by
  cases r with
  | nil =>
    rw [utf8DecodeLossy.eq_4, if_neg h1, if_neg h2, if_neg h3, if_pos h4, if_pos hc1,
      if_pos hc2]
  | cons c3 r3 =>
    rw [utf8DecodeLossy.eq_5, if_neg h1, if_neg h2, if_neg h3, if_pos h4, if_pos hc1,
      if_pos hc2]

/-- Unfolding: three-byte lead with an invalid second continuation byte. -/
theorem dLossy_three_badc2 {b c1 c2 : Nat} {r : List Nat} (h1 : ¬b < 0x80) (h2 : ¬b < 0xC2)
    (h3 : ¬b ≤ 0xDF) (h4 : b ≤ 0xEF) (hc1 : contLo b ≤ c1 ∧ c1 ≤ contHi b)
    (hc2 : ¬(0x80 ≤ c2 ∧ c2 ≤ 0xBF)) :
    utf8DecodeLossy (b :: c1 :: c2 :: r) = 0xFFFD :: utf8DecodeLossy (c2 :: r) := by
  cases r with
  | nil =>
    rw [utf8DecodeLossy.eq_4, if_neg h1, if_neg h2, if_neg h3, if_pos h4, if_pos hc1,
      if_neg hc2]
  | cons c3 r3 =>
    rw [utf8DecodeLossy.eq_5, if_neg h1, if_neg h2, if_neg h3, if_pos h4, if_pos hc1,
      if_neg hc2]

/-- Unfolding: three-byte lead with an invalid first continuation byte. -/
theorem dLossy_three_badc1 {b c1 : Nat} {r : List Nat} (h1 : ¬b < 0x80) (h2 : ¬b < 0xC2)
    (h3 : ¬b ≤ 0xDF) (h4 : b ≤ 0xEF) (hc1 : ¬(contLo b ≤ c1 ∧ c1 ≤ contHi b)) :
    utf8DecodeLossy (b :: c1 :: r) = 0xFFFD :: utf8DecodeLossy (c1 :: r) := by
  cases r with
  | nil => rw [utf8DecodeLossy.eq_3, if_neg h1, if_neg h2, if_neg h3, if_pos h4, if_neg hc1]
  | cons c2 r2 =>
    cases r2 with
    | nil =>
      rw [utf8DecodeLossy.eq_4, if_neg h1, if_neg h2, if_neg h3, if_pos h4, if_neg hc1]
    | cons c3 r3 =>
      rw [utf8DecodeLossy.eq_5, if_neg h1, if_neg h2, if_neg h3, if_pos h4, if_neg hc1]

/-- Unfolding: four-byte lead at the end of the input. -/
theorem dLossy_four_nil {b : Nat} (h1 : ¬b < 0x80) (h2 : ¬b < 0xC2) (h3 : ¬b ≤ 0xDF)
    (h4 : ¬b ≤ 0xEF) (h5 : b ≤ 0xF4) : utf8DecodeLossy [b] = [0xFFFD] := by
  rw [utf8DecodeLossy.eq_2, if_neg h1, if_neg h2, if_neg h3, if_neg h4, if_pos h5]

/-- Unfolding: four-byte lead and valid first continuation at the end. -/
theorem dLossy_four_pair {b c1 : Nat} (h1 : ¬b < 0x80) (h2 : ¬b < 0xC2) (h3 : ¬b ≤ 0xDF)
    (h4 : ¬b ≤ 0xEF) (h5 : b ≤ 0xF4) (hc1 : contLo b ≤ c1 ∧ c1 ≤ contHi b) :
    utf8DecodeLossy [b, c1] = [0xFFFD] := by
  rw [utf8DecodeLossy.eq_3, if_neg h1, if_neg h2, if_neg h3, if_neg h4, if_pos h5,
    if_pos hc1]

/-- Unfolding: four-byte lead and two valid continuations at the end. -/
theorem dLossy_four_triple {b c1 c2 : Nat} (h1 : ¬b < 0x80) (h2 : ¬b < 0xC2)
    (h3 : ¬b ≤ 0xDF) (h4 : ¬b ≤ 0xEF) (h5 : b ≤ 0xF4)
    (hc1 : contLo b ≤ c1 ∧ c1 ≤ contHi b) (hc2 : 0x80 ≤ c2 ∧ c2 ≤ 0xBF) :
    utf8DecodeLossy [b, c1, c2] = [0xFFFD] := by
  rw [utf8DecodeLossy.eq_4, if_neg h1, if_neg h2, if_neg h3, if_neg h4, if_pos h5,
    if_pos hc1, if_pos hc2]

/-- Unfolding: well-formed four-byte sequence. -/
theorem dLossy_four_ok {b c1 c2 c3 : Nat} {r : List Nat} (h1 : ¬b < 0x80) (h2 : ¬b < 0xC2)
    (h3 : ¬b ≤ 0xDF) (h4 : ¬b ≤ 0xEF) (h5 : b ≤ 0xF4)
    (hc1 : contLo b ≤ c1 ∧ c1 ≤ contHi b) (hc2 : 0x80 ≤ c2 ∧ c2 ≤ 0xBF)
    (hc3 : 0x80 ≤ c3 ∧ c3 ≤ 0xBF) :
    utf8DecodeLossy (b :: c1 :: c2 :: c3 :: r) =
      ((b - 0xF0) * 262144 + (c1 - 0x80) * 4096 + (c2 - 0x80) * 64 + (c3 - 0x80)) ::
        utf8DecodeLossy r := by
  rw [utf8DecodeLossy.eq_5, if_neg h1, if_neg h2, if_neg h3, if_neg h4, if_pos h5,
    if_pos hc1, if_pos hc2, if_pos hc3]

/-- Unfolding: four-byte lead with an invalid third continuation byte. -/
theorem dLossy_four_badc3 {b c1 c2 c3 : Nat} {r : List Nat} (h1 : ¬b < 0x80) (h2 : ¬b < 0xC2)
    (h3 : ¬b ≤ 0xDF) (h4 : ¬b ≤ 0xEF) (h5 : b ≤ 0xF4)
    (hc1 : contLo b ≤ c1 ∧ c1 ≤ contHi b) (hc2 : 0x80 ≤ c2 ∧ c2 ≤ 0xBF)
    (hc3 : ¬(0x80 ≤ c3 ∧ c3 ≤ 0xBF)) :
    utf8DecodeLossy (b :: c1 :: c2 :: c3 :: r) = 0xFFFD :: utf8DecodeLossy (c3 :: r) := by
  rw [utf8DecodeLossy.eq_5, if_neg h1, if_neg h2, if_neg h3, if_neg h4, if_pos h5,
    if_pos hc1, if_pos hc2, if_neg hc3]

/-- Unfolding: four-byte lead with an invalid second continuation byte. -/
theorem dLossy_four_badc2 {b c1 c2 : Nat} {r : List Nat} (h1 : ¬b < 0x80) (h2 : ¬b < 0xC2)
    (h3 : ¬b ≤ 0xDF) (h4 : ¬b ≤ 0xEF) (h5 : b ≤ 0xF4)
    (hc1 : contLo b ≤ c1 ∧ c1 ≤ contHi b) (hc2 : ¬(0x80 ≤ c2 ∧ c2 ≤ 0xBF)) :
    utf8DecodeLossy (b :: c1 :: c2 :: r) = 0xFFFD :: utf8DecodeLossy (c2 :: r) := by
  cases r with
  | nil =>
    rw [utf8DecodeLossy.eq_4, if_neg h1, if_neg h2, if_neg h3, if_neg h4, if_pos h5,
      if_pos hc1, if_neg hc2]
  | cons c3 r3 =>
    rw [utf8DecodeLossy.eq_5, if_neg h1, if_neg h2, if_neg h3, if_neg h4, if_pos h5,
      if_pos hc1, if_neg hc2]

/-- Unfolding: four-byte lead with an invalid first continuation byte. -/
theorem dLossy_four_badc1 {b c1 : Nat} {r : List Nat} (h1 : ¬b < 0x80) (h2 : ¬b < 0xC2)
    (h3 : ¬b ≤ 0xDF) (h4 : ¬b ≤ 0xEF) (h5 : b ≤ 0xF4)
    (hc1 : ¬(contLo b ≤ c1 ∧ c1 ≤ contHi b)) :
    utf8DecodeLossy (b :: c1 :: r) = 0xFFFD :: utf8DecodeLossy (c1 :: r) := by
  cases r with
  | nil =>
    rw [utf8DecodeLossy.eq_3, if_neg h1, if_neg h2, if_neg h3, if_neg h4, if_pos h5,
      if_neg hc1]
  | cons c2 r2 =>
    cases r2 with
    | nil =>
      rw [utf8DecodeLossy.eq_4, if_neg h1, if_neg h2, if_neg h3, if_neg h4, if_pos h5,
        if_neg hc1]
    | cons c3 r3 =>
      rw [utf8DecodeLossy.eq_5, if_neg h1, if_neg h2, if_neg h3, if_neg h4, if_pos h5,
        if_neg hc1]

end Grnvs
namespace Grnvs

/-- Soundness of the decoder against the declarative relation: every input
splits into chunks that are either well-formed character encodings, decoded
to their scalar values, or stretches of bytes that are not valid text,
replaced by the U+FFFD marker. -/
theorem utf8DecodeLossy_lossyDecodes (bs : List Nat) :
    LossyDecodes bs (utf8DecodeLossy bs) := by
  induction bs using utf8DecodeLossy.induct with
  | case1 =>
    rw [dLossy_nil]
    exact LossyDecodes.nil
  | case2 b rest h ih =>
    rw [dLossy_ascii h]
    exact LossyDecodes.valid b [b] rest _ (enc_ascii h) ih
  | case3 b rest h1 h2 ih =>
    rw [dLossy_low h1 h2]
    exact LossyDecodes.invalid [b] rest _ (by simp) (nvh_bad_lead (by omega) (Or.inl h2)) ih
  | case4 b h1 h2 h3 =>
    rw [dLossy_two_nil h1 h2 h3]
    exact LossyDecodes.invalid [b] [] [] (by simp) (nvh_single (by omega)) LossyDecodes.nil
  | case5 b h1 h2 h3 c rest2 hc ih =>
    rw [dLossy_two_ok h1 h2 h3 hc]
    exact LossyDecodes.valid _ [b, c] rest2 _ (enc_two (by omega) h3 hc.1 hc.2) ih
  | case6 b h1 h2 h3 c rest2 hc ih =>
    rw [dLossy_two_bad h1 h2 h3 hc]
    exact LossyDecodes.invalid [b] (c :: rest2) _ (by simp)
      (nvh_two_badcont (by omega) h3 hc) ih
  | case7 b h1 h2 h3 h4 =>
    rw [dLossy_three_nil h1 h2 h3 h4]
    exact LossyDecodes.invalid [b] [] [] (by simp) (nvh_single (by omega)) LossyDecodes.nil
  | case8 b h1 h2 h3 h4 c1 hc1 =>
    rw [dLossy_three_pair h1 h2 h3 h4 hc1]
    exact LossyDecodes.invalid [b, c1] [] [] (by simp) (nvh_pair (by omega)) LossyDecodes.nil
  | case9 b h1 h2 h3 h4 c1 hc1 c2 rest2 hc2 ih =>
    rw [dLossy_three_ok h1 h2 h3 h4 hc1 hc2]
    exact LossyDecodes.valid _ [b, c1, c2] rest2 _
      (enc_three (by omega) h4 hc1.1 hc1.2 hc2.1 hc2.2) ih
  | case10 b h1 h2 h3 h4 c1 hc1 c2 rest2 hc2 ih =>
    rw [dLossy_three_badc2 h1 h2 h3 h4 hc1 hc2]
    exact LossyDecodes.invalid [b, c1] (c2 :: rest2) _ (by simp)
      (nvh_badc2 (by omega) hc2) ih
  | case11 b h1 h2 h3 h4 c1 rest2 hc1 ih =>
    rw [dLossy_three_badc1 h1 h2 h3 h4 hc1]
    exact LossyDecodes.invalid [b] (c1 :: rest2) _ (by simp)
      (nvh_badc1 (by omega) hc1) ih
  | case12 b h1 h2 h3 h4 h5 =>
    rw [dLossy_four_nil h1 h2 h3 h4 h5]
    exact LossyDecodes.invalid [b] [] [] (by simp) (nvh_single (by omega)) LossyDecodes.nil
  | case13 b h1 h2 h3 h4 h5 c1 hc1 =>
    rw [dLossy_four_pair h1 h2 h3 h4 h5 hc1]
    exact LossyDecodes.invalid [b, c1] [] [] (by simp) (nvh_pair (by omega)) LossyDecodes.nil
  | case14 b h1 h2 h3 h4 h5 c1 hc1 c2 hc2 =>
    rw [dLossy_four_triple h1 h2 h3 h4 h5 hc1 hc2]
    exact LossyDecodes.invalid [b, c1, c2] [] [] (by simp) (nvh_triple (by omega))
      LossyDecodes.nil
  | case15 b h1 h2 h3 h4 h5 c1 hc1 c2 hc2 c3 rest2 hc3 ih =>
    rw [dLossy_four_ok h1 h2 h3 h4 h5 hc1 hc2 hc3]
    exact LossyDecodes.valid _ [b, c1, c2, c3] rest2 _
      (enc_four (by omega) h5 hc1.1 hc1.2 hc2.1 hc2.2 hc3.1 hc3.2) ih
  | case16 b h1 h2 h3 h4 h5 c1 hc1 c2 hc2 c3 rest2 hc3 ih =>
    rw [dLossy_four_badc3 h1 h2 h3 h4 h5 hc1 hc2 hc3]
    exact LossyDecodes.invalid [b, c1, c2] (c3 :: rest2) _ (by simp)
      (nvh_badc3 (by omega) hc3) ih
  | case17 b h1 h2 h3 h4 h5 c1 hc1 c2 rest2 hc2 ih =>
    rw [dLossy_four_badc2 h1 h2 h3 h4 h5 hc1 hc2]
    exact LossyDecodes.invalid [b, c1] (c2 :: rest2) _ (by simp)
      (nvh_badc2 (by omega) hc2) ih
  | case18 b h1 h2 h3 h4 h5 c1 rest2 hc1 ih =>
    rw [dLossy_four_badc1 h1 h2 h3 h4 h5 hc1]
    exact LossyDecodes.invalid [b] (c1 :: rest2) _ (by simp)
      (nvh_badc1 (by omega) hc1) ih
  | case19 b rest2 h1 h2 h3 h4 h5 ih =>
    rw [dLossy_high h1 h2 h3 h4 h5]
    exact LossyDecodes.invalid [b] rest2 _ (by simp)
      (nvh_bad_lead (by omega) (Or.inr (by omega))) ih

/-- C7: for every buffer of length at most 17760 bytes, `hexdump_to_string`
returns the external library's output bytes up to the null terminator decoded
as text — and that decoding satisfies the lossy-decoding relation: every
chunk is either a well-formed character encoding, decoded to its scalar
value, or a byte sequence that is not valid text, replaced by the U+FFFD
replacement marker. -/
theorem hexdump_to_string_lossy (ext : Ext) (data : List Nat) (h : data.length ≤ 17760) :
    hexdump_to_string ext data =
      .ok (utf8DecodeLossy (cstrBytes (ext.hexdump_str data))) [.hexdumpStrC data.length] ∧
    LossyDecodes (cstrBytes (ext.hexdump_str data))
      (utf8DecodeLossy (cstrBytes (ext.hexdump_str data))) := by
  constructor
  · simp only [hexdump_to_string]
    rw [if_neg (by omega)]
  · exact utf8DecodeLossy_lossyDecodes _

/-- Witness for `hexdump_to_string_lossy`: with an external hexdump model
mapping byte 1 to the digit byte 0x31 followed by the null terminator, the
wrapper returns the text [0x31]. -/
theorem hexdump_to_string_lossy_w :
    hexdump_to_string ext0 [1] = .ok [0x31] [.hexdumpStrC 1] ∧
    LossyDecodes [0x31] [0x31] := by
  have hc : cstrBytes (ext0.hexdump_str [1]) = [0x31] := by decide
  have hd : utf8DecodeLossy [0x31] = [0x31] := by
    rw [dLossy_ascii (show (0x31 : Nat) < 0x80 by norm_num), dLossy_nil]
  have h := hexdump_to_string_lossy ext0 [1] (by decide)
  rw [hc, hd] at h
  simpa using h

end Grnvs
